import Mathlib

/-!
Verification of the reactive-chmlsh library against its specification.

The development shallowly embeds the JavaScript source:
* JS numbers are modelled by `JNum` (rationals extended with NaN and the two
  infinities); array reads out of bounds yield `undefined`, which every numeric
  operation appearing in the embedded code treats exactly as NaN, so it is
  modelled by `JNum.nan` at the call sites where it can only flow into
  arithmetic or relational operators.
* JS values passed to `dispatch` are modelled by `JVal`.
* The store of `ChmlshStore.js` is modelled as an explicit state machine with a
  heap of listener arrays, so that the copy-on-write aliasing of
  `currentListeners` / `nextListeners` is represented faithfully.
-/

namespace Chmlsh

/-- JS numbers: a rational, NaN, or one of the infinities.  (JS has a signed
zero which ℚ lacks; no code path embedded here distinguishes `-0` from `0`.) -/
inductive JNum where
  | num (q : ℚ)
  | nan
  | posInf
  | negInf
deriving DecidableEq, Repr

namespace JNum

/-- JS addition. -/
def add : JNum → JNum → JNum
  | nan, _ => nan
  | _, nan => nan
  | posInf, negInf => nan
  | negInf, posInf => nan
  | posInf, _ => posInf
  | _, posInf => posInf
  | negInf, _ => negInf
  | _, negInf => negInf
  | num a, num b => num (a + b)

/-- JS subtraction. -/
def sub : JNum → JNum → JNum
  | nan, _ => nan
  | _, nan => nan
  | posInf, posInf => nan
  | negInf, negInf => nan
  | posInf, _ => posInf
  | negInf, _ => negInf
  | _, posInf => negInf
  | _, negInf => posInf
  | num a, num b => num (a - b)

/-- JS multiplication. -/
def mul : JNum → JNum → JNum
  | nan, _ => nan
  | _, nan => nan
  | posInf, posInf => posInf
  | posInf, negInf => negInf
  | negInf, posInf => negInf
  | negInf, negInf => posInf
  | posInf, num b => if b = 0 then nan else if 0 < b then posInf else negInf
  | num a, posInf => if a = 0 then nan else if 0 < a then posInf else negInf
  | negInf, num b => if b = 0 then nan else if 0 < b then negInf else posInf
  | num a, negInf => if a = 0 then nan else if 0 < a then negInf else posInf
  | num a, num b => num (a * b)

/-- JS division (division of a nonzero rational by zero gives the infinity of
the dividend's sign, `0/0` gives NaN). -/
def div : JNum → JNum → JNum
  | nan, _ => nan
  | _, nan => nan
  | posInf, posInf => nan
  | posInf, negInf => nan
  | negInf, posInf => nan
  | negInf, negInf => nan
  | posInf, num b => if 0 ≤ b then posInf else negInf
  | negInf, num b => if 0 ≤ b then negInf else posInf
  | num _, posInf => num 0
  | num _, negInf => num 0
  | num a, num b =>
    if b = 0 then (if a = 0 then nan else if 0 < a then posInf else negInf)
    else num (a / b)

/-- JS `<=` : any comparison with NaN is false. -/
def jle : JNum → JNum → Bool
  | nan, _ => false
  | _, nan => false
  | negInf, _ => true
  | _, posInf => true
  | posInf, _ => false
  | _, negInf => false
  | num a, num b => decide (a ≤ b)

/-- JS `>=` : `a >= b` holds exactly when `b <= a` (and never with NaN). -/
def jge (a b : JNum) : Bool := jle b a

end JNum

open JNum

/-- JS array read `xs[i]`.  Out of bounds (including negative indices) the read
yields `undefined`; in the embedded interpolation code such a read only ever
flows into numeric/relational operators, where `undefined` behaves exactly as
NaN, so it is modelled by `JNum.nan`. -/
def jsGet (xs : List JNum) (i : ℤ) : JNum :=
  if i < 0 then JNum.nan else xs.getD i.toNat JNum.nan

/-- Interpolation configuration of `AnimatedValue.interpolate` in
`src/Animated.js`.  The source defaults are `inputRange = [0,1]`,
`outputRange = [0,1]`, identity easing and `extrapolate = 'extend'`. -/
structure InterpConfig where
  inputRange : List JNum
  outputRange : List JNum
  easing : JNum → JNum
  extrapolate : String

/-- The segment-search loop of `_interpolate` in `src/Animated.js`:
`for (i = 0; i < _inputRange.length - 1; i++) { if (value >= in[i] && value <= in[i+1]) break; }`.
The index arithmetic is over ℤ, as in JS.  The loop body is guarded by
`i < length - 1`, so the extra structural counter `fuel` does not alter the
semantics as long as it starts at least at `length` (see `findSeg`). -/
def findSegAux (inR : List JNum) (value : JNum) : ℕ → ℕ → ℕ
  | 0, i => i
  | fuel + 1, i =>
    if (i : ℤ) < (inR.length : ℤ) - 1 then
      if jge value (jsGet inR i) && jle value (jsGet inR (i + 1)) then i
      else findSegAux inR value fuel (i + 1)
    else i

/-- The loop of `_interpolate`, started at `i = 0`; it performs at most
`length - 1` increments, so `length` iterations always suffice. -/
def findSeg (inR : List JNum) (value : JNum) : ℕ :=
  findSegAux inR value inR.length 0

/-- `_interpolate(value)` from `src/Animated.js`: locate the bounding segment,
handle the `'clamp'` branch when the loop ran off the end, otherwise normalise,
ease and linearly map into the output range.  When the loop ran off the end and
`extrapolate` is not `'clamp'`, the source falls through and reads
`_inputRange[i + 1]` / `_outputRange[i + 1]` out of bounds. -/
def interpValue (c : InterpConfig) (value : JNum) : JNum :=
  let inR := c.inputRange
  let outR := c.outputRange
  let i := findSeg inR value
  if (i : ℤ) = (inR.length : ℤ) - 1 ∧ c.extrapolate = "clamp" then
    if jle value (jsGet inR 0) then jsGet outR 0
    else jsGet outR ((outR.length : ℤ) - 1)
  else
    let inputMin := jsGet inR i
    let inputMax := jsGet inR ((i : ℤ) + 1)
    let outputMin := jsGet outR i
    let outputMax := jsGet outR ((i : ℤ) + 1)
    let normalized := JNum.div (JNum.sub value inputMin) (JNum.sub inputMax inputMin)
    let eased := c.easing normalized
    JNum.add outputMin (JNum.mul eased (JNum.sub outputMax outputMin))

/-- The configuration `inputRange=[0,1]`, `outputRange=[0,100]`, default easing,
default (`'extend'`) extrapolation. -/
def extendCfg : InterpConfig :=
  { inputRange := [JNum.num 0, JNum.num 1]
    outputRange := [JNum.num 0, JNum.num 100]
    easing := id
    extrapolate := "extend" }

/-- The same ranges with `extrapolate := 'clamp'`. -/
def clampCfg : InterpConfig :=
  { inputRange := [JNum.num 0, JNum.num 1]
    outputRange := [JNum.num 0, JNum.num 100]
    easing := id
    extrapolate := "clamp" }

/-- Claim C7: with `inputRange=[0,1]`, `outputRange=[0,100]` and the default identity
easing, interpolating the parent value `0.5` yields `50`, and with
`extrapolate: 'clamp'` the parent value `-1` yields `0`. -/
theorem interpolate_spec_examples :
    interpValue extendCfg (JNum.num (1 / 2)) = JNum.num 50 ∧
    interpValue clampCfg (JNum.num (-1)) = JNum.num 0 := by
  constructor <;>
    norm_num [interpValue, findSeg, findSegAux, extendCfg, clampCfg, jsGet,
      JNum.jge, JNum.jle, JNum.sub, JNum.div, JNum.add, JNum.mul]

/-- Claim C6 (failing input): with equal-length ascending ranges
`inputRange=[0,1]`, `outputRange=[0,100]` and the default
`extrapolate: 'extend'`, a parent value outside the input range does NOT
produce the linear extension of the boundary segment: the segment loop runs off
the end (`i = length - 1`), the non-clamp path falls through, reads
`inputRange[i+1]` and `outputRange[i+1]` out of bounds (`undefined`), and the
arithmetic yields NaN — for values above the range (`2`) and below it (`-1`)
alike. -/
theorem interpolate_extend_outside_nan :
    interpValue extendCfg (JNum.num 2) = JNum.nan ∧
    interpValue extendCfg (JNum.num (-1)) = JNum.nan := by
  have hs : ("extend" = "clamp") = False := by simp
  constructor <;>
    norm_num [interpValue, findSeg, findSegAux, extendCfg, jsGet, hs,
      JNum.jge, JNum.jle, JNum.sub, JNum.div, JNum.add, JNum.mul,
      Int.toNat, List.getD]

/-! ### JS values and objects -/

/-- JS values, as far as the embedded code inspects them.  Function values are
identified by a numeric id (`vFun`). -/
inductive JVal where
  | vUndefined
  | vNull
  | vBool (b : Bool)
  | vNumV (n : JNum)
  | vStr (s : String)
  | vObj (fields : List (String × JVal))
  | vFun (id : ℕ)

/-- A JS object: its own enumerable properties as an association list in
property-insertion order (JS objects never hold the same key twice). -/
abbrev JObj := List (String × JVal)

/-- Property read `v.k`; a missing property reads `undefined`.  On non-objects
(including function values, none of which carries the properties the embedded
code reads) the read also yields `undefined`. -/
def getField : JVal → String → JVal
  | .vObj fs, k => (fs.lookup k).getD .vUndefined
  | _, _ => .vUndefined

/-- `typeof v === 'undefined'`. -/
def isUndef : JVal → Bool
  | .vUndefined => true
  | _ => false

/-- JS truthiness of a value (`if (v)`). -/
def jsTruthy : JVal → Bool
  | .vUndefined => false
  | .vNull => false
  | .vBool b => b
  | .vNumV (.num q) => decide (q ≠ 0)
  | .vNumV .nan => false
  | .vNumV _ => true
  | .vStr s => decide (s ≠ "")
  | .vObj _ => true
  | .vFun _ => true

/-- JS property read `o[k]` on an object, as an `Option` (a missing property
reads as `undefined`). -/
def getProp (o : JObj) (k : String) : Option JVal :=
  o.lookup k

/-- JS property write `o[k] = v`: overwrites an existing property in place
(keeping its position in insertion order) or appends a new one. -/
def setKey : JObj → String → JVal → JObj
  | [], k, v => [(k, v)]
  | (k₁, v₁) :: rest, k, v =>
    if k₁ = k then (k₁, v) :: rest else (k₁, v₁) :: setKey rest k v

/-- One source step of `Object.assign(acc, src)`: copy every own property of
`src` onto `acc`, in property order. -/
def assignObj (acc src : JObj) : JObj :=
  src.foldl (fun a kv => setKey a kv.1 kv.2) acc

/-- `StyleSheet.flatten(...styles)` from `src/hooks/useAccessibility.js`:
`Object.assign({}, ...styles.filter(Boolean))`.  An argument is `none` when it
is `undefined` or `null` (or any other falsy value), which `filter(Boolean)`
drops before the assign. -/
def flatten (styles : List (Option JObj)) : JObj :=
  (styles.filterMap id).foldl assignObj []

lemma getProp_setKey_self (o : JObj) (k : String) (v : JVal) :
    getProp (setKey o k v) k = some v := by
  induction o with
  | nil => simp [setKey, getProp]
  | cons kv rest ih =>
    obtain ⟨k₁, v₁⟩ := kv
    by_cases h : k₁ = k
    · subst h; simp [setKey, getProp]
    · have hbe : (k == k₁) = false := by simp [Ne.symm h]
      simpa [setKey, h, getProp, List.lookup, hbe] using ih

lemma getProp_setKey_ne (o : JObj) (k k' : String) (v : JVal) (h : k' ≠ k) :
    getProp (setKey o k' v) k = getProp o k := by
  have hbe : (k == k') = false := by simp [Ne.symm h]
  induction o with
  | nil => simp [setKey, getProp, List.lookup, hbe]
  | cons kv rest ih =>
    obtain ⟨k₁, v₁⟩ := kv
    by_cases h₁ : k₁ = k'
    · subst h₁; simp [setKey, getProp, List.lookup, hbe]
    · by_cases h₂ : k₁ = k
      · subst h₂; simp [setKey, h₁, getProp, List.lookup]
      · have hbe₂ : (k == k₁) = false := by simp [Ne.symm h₂]
        simpa [setKey, h₁, getProp, List.lookup, hbe₂] using ih

lemma getProp_eq_none (o : JObj) (k : String) (h : k ∉ o.map Prod.fst) :
    getProp o k = none := by
  induction o with
  | nil => simp [getProp]
  | cons kv rest ih =>
    obtain ⟨k₁, v₁⟩ := kv
    simp only [List.map_cons, List.mem_cons, not_or] at h
    have hbe : (k == k₁) = false := by simp [h.1]
    simpa [getProp, List.lookup, hbe] using ih h.2

lemma getProp_assignObj (src : JObj) (acc : JObj) (k : String)
    (hnd : (src.map Prod.fst).Nodup) :
    getProp (assignObj acc src) k = (getProp src k).or (getProp acc k) := by
  induction src generalizing acc with
  | nil => simp [assignObj, getProp]
  | cons kv rest ih =>
    obtain ⟨k₁, v₁⟩ := kv
    simp only [List.map_cons, List.nodup_cons] at hnd
    have hstep : assignObj acc ((k₁, v₁) :: rest) = assignObj (setKey acc k₁ v₁) rest := by
      simp [assignObj]
    by_cases h : k₁ = k
    · subst h
      rw [hstep, ih _ hnd.2, getProp_eq_none rest k₁ hnd.1, getProp_setKey_self]
      simp [getProp, List.lookup]
    · rw [hstep, ih _ hnd.2, getProp_setKey_ne acc k k₁ v₁ h]
      have hbe : (k == k₁) = false := by simp [Ne.symm h]
      simp [getProp, List.lookup, hbe]

lemma findSome_or_append {α β : Type} (f : α → Option β) (l₁ l₂ : List α) :
    (l₁ ++ l₂).findSome? f = (l₁.findSome? f).or (l₂.findSome? f) := by
  induction l₁ with
  | nil => simp
  | cons a l ih =>
    cases h : f a <;> simp [List.findSome?_cons, h, ih]

lemma foldl_assignObj_getProp (objs : List JObj) (acc : JObj) (k : String)
    (h : ∀ o ∈ objs, (o.map Prod.fst).Nodup) :
    getProp (objs.foldl assignObj acc) k
      = (objs.reverse.findSome? (fun o => getProp o k)).or (getProp acc k) := by
  induction objs generalizing acc with
  | nil => simp
  | cons o objs ih =>
    have hnd := h o (by simp)
    rw [List.foldl_cons, ih _ (fun o ho => h o (by simp [ho])),
      getProp_assignObj o acc k hnd]
    cases hgo : getProp o k <;>
      simp [findSome_or_append, Option.or_assoc, List.findSome?_cons, hgo]

/-- Claim C8: `StyleSheet.flatten` merges its arguments last-writer-wins: for every
argument list of style objects (with `undefined`/`null` arguments dropped as if
absent), the flattened object's value at each key is the value given by the
last argument that defines that key. -/
theorem flatten_last_writer_wins (styles : List (Option JObj)) (k : String)
    (hnd : ∀ o ∈ styles.filterMap id, (o.map Prod.fst).Nodup) :
    getProp (flatten styles) k
      = (styles.filterMap id).reverse.findSome? (fun o => getProp o k) := by
  unfold flatten
  rw [foldl_assignObj_getProp _ _ _ hnd]
  simp [getProp]

/-- Concrete argument list used to witness `flatten_last_writer_wins`. -/
def demoStyles : List (Option JObj) :=
  [some [("color", JVal.vStr "red"), ("margin", JVal.vNumV (JNum.num 4))],
   none,
   some [("color", JVal.vStr "blue")]]

/-- Witness for C8 at a concrete argument list containing a `null` entry and an
overriding later object. -/
theorem flatten_last_writer_wins_witness :
    (∀ o ∈ demoStyles.filterMap id, (o.map Prod.fst).Nodup) ∧
    getProp (flatten demoStyles) "color"
      = (demoStyles.filterMap id).reverse.findSome? (fun o => getProp o "color") :=
  ⟨by decide, flatten_last_writer_wins demoStyles "color" (by decide)⟩

/-! ### combineReducers (ChmlshStore.js) -/

/-- The top-level state handled by a combined reducer: a mapping from slice
keys to slice states.  A slice value of `none` models `undefined` (a property
explicitly holding `undefined`, or — when the key is absent — the `undefined`
that `state[key]` reads). -/
abbrev TopState (σ : Type) := List (String × Option σ)

/-- `state[key]` for the combined reducer (an absent key reads `undefined`). -/
def sliceGet {σ : Type} (st : TopState σ) (k : String) : Option σ :=
  (st.lookup k).getD none

/-- What the combined reducer returns: either the very same top-level `state`
object that was passed in (reference-equal), or a freshly allocated object
with the given properties — mirroring `return hasChanged ? nextState : state`,
whose two branches differ by object identity. -/
inductive CombineResult (σ : Type) where
  | same : CombineResult σ
  | fresh (next : TopState σ) : CombineResult σ

/-- The body of the `for (const key in reducers)` loop of `combineReducers`:
extends `nextState` with `reducer(state[key], action)` under `key` and
accumulates `hasChanged ||= nextStateForKey !== previousStateForKey`.  Slice
states live in a type `σ` whose decidable equality models JS `===` on slice
values. -/
def combineStep {σ A : Type} [DecidableEq σ] (state : TopState σ) (action : A)
    (acc : TopState σ × Bool) (kr : String × (Option σ → A → Option σ)) :
    TopState σ × Bool :=
  let previousStateForKey := sliceGet state kr.1
  let nextStateForKey := kr.2 previousStateForKey action
  (acc.1 ++ [(kr.1, nextStateForKey)],
   acc.2 || decide (nextStateForKey ≠ previousStateForKey))

/-- `combineReducers(reducers)` from `ChmlshStore.js`, applied to a state and
an action ( the source defaults `state` to `{}` when it is `undefined`;
callers here always pass an object).  Reducers are an association list because
`for ... in` visits the object's keys in insertion order. -/
def combineReducers {σ A : Type} [DecidableEq σ]
    (reducers : List (String × (Option σ → A → Option σ)))
    (state : TopState σ) (action : A) : CombineResult σ :=
  let r := reducers.foldl (combineStep state action) ([], false)
  if r.2 then .fresh r.1 else .same

lemma combine_foldl_eq {σ A : Type} [DecidableEq σ]
    (reducers : List (String × (Option σ → A → Option σ)))
    (state : TopState σ) (action : A) (acc : TopState σ) (b : Bool) :
    reducers.foldl (combineStep state action) (acc, b)
      = (acc ++ reducers.map (fun kr => (kr.1, kr.2 (sliceGet state kr.1) action)),
         b || reducers.any
           (fun kr => decide (kr.2 (sliceGet state kr.1) action ≠ sliceGet state kr.1))) := by
  induction reducers generalizing acc b with
  | nil => simp
  | cons kr rest ih => simp [combineStep, ih, Bool.or_assoc]

/-- Claim C3: the reducer built by `combineReducers` returns the top-level state
object itself (reference-equal) iff every slice reducer returns a sub-state
`===`-equal to its previous slice; otherwise it returns a fresh object mapping
each reducer key to that slice reducer's result. -/
theorem combineReducers_ref_stability {σ A : Type} [DecidableEq σ]
    (reducers : List (String × (Option σ → A → Option σ)))
    (state : TopState σ) (action : A) :
    (combineReducers reducers state action = CombineResult.same ↔
      ∀ kr ∈ reducers, kr.2 (sliceGet state kr.1) action = sliceGet state kr.1) ∧
    ((∃ kr ∈ reducers, kr.2 (sliceGet state kr.1) action ≠ sliceGet state kr.1) →
      combineReducers reducers state action
        = CombineResult.fresh
            (reducers.map (fun kr => (kr.1, kr.2 (sliceGet state kr.1) action)))) := by
  have key : combineReducers reducers state action =
      if reducers.any
          (fun kr => decide (kr.2 (sliceGet state kr.1) action ≠ sliceGet state kr.1))
      then CombineResult.fresh
            (reducers.map (fun kr => (kr.1, kr.2 (sliceGet state kr.1) action)))
      else CombineResult.same := by
    unfold combineReducers
    rw [combine_foldl_eq]
    simp only [List.nil_append, Bool.false_or]
  rw [key]
  by_cases hB : reducers.any
      (fun kr => decide (kr.2 (sliceGet state kr.1) action ≠ sliceGet state kr.1)) = true
  · obtain ⟨kr, hmem, hne⟩ := List.any_eq_true.mp hB
    simp only [decide_eq_true_eq] at hne
    rw [if_pos hB]
    constructor
    · constructor
      · intro h
        cases h
      · intro hall
        exact absurd (hall kr hmem) hne
    · intro _
      rfl
  · have hall : ∀ kr ∈ reducers, kr.2 (sliceGet state kr.1) action = sliceGet state kr.1 := by
      intro kr hmem
      by_contra hne
      exact hB (List.any_eq_true.mpr ⟨kr, hmem, by simpa using hne⟩)
    rw [if_neg hB]
    exact ⟨iff_of_true rfl hall, fun ⟨kr, hmem, hne⟩ => absurd (hall kr hmem) hne⟩

/-- Reducer table used to witness `combineReducers_ref_stability`: a `count`
slice that always returns a new value, a `keep` slice that returns its state
unchanged. -/
def demoReducers : List (String × (Option ℚ → ℕ → Option ℚ)) :=
  [("count", fun s _ => some (s.getD 0 + 1)), ("keep", fun s _ => s)]

/-- Concrete top-level state for the `combineReducers` witness. -/
def demoState : TopState ℚ := [("count", some 0), ("keep", some 5)]

/-- Witness for C3: on a state where the `count` slice changes, the combined
reducer returns a fresh object with the new slice values. -/
theorem combineReducers_ref_stability_witness :
    combineReducers demoReducers demoState 0
      = CombineResult.fresh
          (demoReducers.map (fun kr => (kr.1, kr.2 (sliceGet demoState kr.1) 0))) := by
  apply (combineReducers_ref_stability demoReducers demoState 0).2
  refine ⟨("count", fun s _ => some (s.getD 0 + 1)), by simp [demoReducers], ?_⟩
  norm_num [sliceGet, demoState, List.lookup]

/-! ### StackNavigator

The navigation state is the `routes` array of `{name, key, params}` records.
`replace`, `navigate` (on an existing route) and `setParams` call `setRoutes`
synchronously, so their updaters execute.  `push`, `pop` and `popToTop`
instead put their `setRoutes` updater inside a completion callback passed to
`Animated.timing(transitionAnim, {toValue: 1, duration: 300}).start(cb)` —
and `start(options = {})` in `src/Animated.js` invokes, on completion, only
`_onComplete` (the timing config's `onComplete`, absent here) and
`options.onComplete`, a property read on the passed function `cb`, which is
`undefined`.  The callback therefore never fires and those three operations
never change `routes` (see `startOnComplete`); the registered updaters are
embedded separately (`pushUpdater`, `popUpdater`, `popToTopUpdater`).
Generated keys `` `${name}-${Date.now()}` `` depend on the clock and are
passed in as an explicit `key` argument. -/

/-- A route record `{name, key, params}` of the stack navigator. -/
structure Route where
  name : String
  key : String
  params : JObj

/-- A screen declaration: the `name` and `initialParams` props of a
`StackNavigator.Screen` child. -/
structure Screen where
  name : String
  initialParams : JObj

/-- JS object-spread `{...a, ...b}`: a fresh object holding the properties of
`a` overridden by those of `b`. -/
def spread2 (a b : JObj) : JObj :=
  assignObj (assignObj [] a) b

/-- `newRoutes[newRoutes.length - 1] = r`.  On a non-empty array this swaps the
last element; on an empty array the write goes to index `-1`, which creates a
non-index property and leaves the array elements unchanged. -/
def jsSetLast (routes : List Route) (r : Route) : List Route :=
  if routes.isEmpty then routes else routes.dropLast ++ [r]

/-- The initial `routes` state of `StackNavigator`: exactly one route built
from the initial screen. -/
def stackInit (s : Screen) (key : String) : List Route :=
  [⟨s.name, key, s.initialParams⟩]

/-- The completion step of `Animated.timing(value, config).start(options)`
from `src/Animated.js`: when progress reaches `1`, it runs
`if (_onComplete) _onComplete({finished: true});` followed by
`if (options.onComplete) options.onComplete({finished: true});`, where
`_onComplete` is `config.onComplete`.  The result lists the callback values
actually invoked, in order. -/
def startOnComplete (config options : JVal) : List JVal :=
  (if jsTruthy (getField config "onComplete") then [getField config "onComplete"] else []) ++
  (if jsTruthy (getField options "onComplete") then [getField options "onComplete"] else [])

/-- The timing config the navigator passes: `{toValue: 1, duration: 300}` —
no `onComplete` property. -/
def navTimingConfig : JVal :=
  JVal.vObj [("toValue", JVal.vNumV (JNum.num 1)), ("duration", JVal.vNumV (JNum.num 300))]

/-- Apply `updater` to the routes only if the animation completion actually
invoked the callback carrying it (`fired` is the list of callbacks
`startOnComplete` invokes). -/
def viaCompletion (fired : List JVal) (updater : List Route → List Route)
    (routes : List Route) : List Route :=
  if fired.isEmpty then routes else updater routes

/-- The updater `push` registers in its completion callback:
`setRoutes(prevRoutes => [...prevRoutes, {name, key, params: {...screen.initialParams, ...params}}])`. -/
def pushUpdater (screen : Screen) (name key : String) (params : JObj)
    (prevRoutes : List Route) : List Route :=
  prevRoutes ++ [⟨name, key, spread2 screen.initialParams params⟩]

/-- The updater `pop` registers in its completion callback:
`setRoutes(prevRoutes => prevRoutes.slice(0, -1))`. -/
def popUpdater (prevRoutes : List Route) : List Route :=
  prevRoutes.dropLast

/-- The updater `popToTop` registers in its completion callback:
`setRoutes(prevRoutes => [prevRoutes[0]])` (only reachable behind the
length > 1 guard, so `prevRoutes` is never empty there). -/
def popToTopUpdater (prevRoutes : List Route) : List Route :=
  match prevRoutes with
  | [] => []
  | r :: _ => [r]

/-- `push(name, params)` as executed: an unknown screen name logs an error and
returns; otherwise `setTransitioning(true)` and
`Animated.timing(...).start(cb)` run, but `start` never invokes `cb`
(`startOnComplete navTimingConfig (vFun _) = []`), so the appending
`pushUpdater` inside `cb` is dead and the route stack is unchanged. -/
def stackPush (screens : List Screen) (routes : List Route)
    (name : String) (params : JObj) (key : String) : List Route :=
  match screens.find? (fun s => s.name == name) with
  | none => routes
  | some screen =>
    viaCompletion (startOnComplete navTimingConfig (JVal.vFun 0))
      (pushUpdater screen name key params) routes

/-- `pop()` as executed: returns early when the stack holds at most one route;
otherwise starts the transition animation, whose completion callback —
holding `setRoutes(popUpdater)` — is never invoked by `start`, so the route
stack is unchanged either way. -/
def stackPop (routes : List Route) : List Route :=
  if routes.length ≤ 1 then routes
  else viaCompletion (startOnComplete navTimingConfig (JVal.vFun 0)) popUpdater routes

/-- `goBack()`: calls `pop()` when more than one route is on the stack (which,
as executed, leaves `routes` unchanged); otherwise it delegates to the parent
navigator, also leaving this stack unchanged. -/
def stackGoBack (routes : List Route) : List Route :=
  if routes.length > 1 then stackPop routes else routes

/-- `popToTop()` as executed: returns early when the stack holds at most one
route; otherwise starts the transition animation, whose completion callback —
holding `setRoutes(popToTopUpdater)` — is never invoked by `start`, so the
route stack is unchanged either way. -/
def stackPopToTop (routes : List Route) : List Route :=
  if routes.length ≤ 1 then routes
  else viaCompletion (startOnComplete navTimingConfig (JVal.vFun 0)) popToTopUpdater routes

/-- `replace(name, params)`: an unknown screen name logs an error and leaves
the stack unchanged; otherwise the last route is swapped for a fresh route of
the given name. -/
def stackReplace (screens : List Screen) (routes : List Route)
    (name : String) (params : JObj) (key : String) : List Route :=
  match screens.find? (fun s => s.name == name) with
  | none => routes
  | some screen => jsSetLast routes ⟨name, key, spread2 screen.initialParams params⟩

/-- `navigate(name, params)`: if a route with the name exists, truncate to it
(`slice(0, index + 1)`) and merge `params` into it; otherwise `push`. -/
def stackNavigate (screens : List Screen) (routes : List Route)
    (name : String) (params : JObj) (key : String) : List Route :=
  match routes.findIdx? (fun r => r.name == name) with
  | some idx =>
    let newRoutes := routes.take (idx + 1)
    match newRoutes.get? idx with
    | some rt => newRoutes.set idx { rt with params := spread2 rt.params params }
    | none => newRoutes
  | none => stackPush screens routes name params key

/-- `setParams(params)`: merges `params` into the params of the last route. -/
def stackSetParams (routes : List Route) (params : JObj) : List Route :=
  match routes.getLast? with
  | none => routes
  | some rt => jsSetLast routes { rt with params := spread2 rt.params params }

/-- Concrete two-route stack for the navigator theorems. -/
def demoRoutes : List Route :=
  [⟨"Home", "Home-1", []⟩, ⟨"Detail", "Detail-2", []⟩]

/-- Claim C9 (failing input): on the concrete two-route stack `demoRoutes`,
`pop()` — although its `length ≤ 1` guard passes it through — leaves the
route stack unchanged: `startOnComplete` invokes no callback on the
navigator's timing config and positional function argument, so the
`prevRoutes.slice(0, -1)` updater registered in the completion callback never
runs.  That registered updater itself would have removed exactly the last
route, which is what the claim says `pop` does. -/
theorem pop_never_removes_route :
    startOnComplete navTimingConfig (JVal.vFun 0) = [] ∧
    stackPop demoRoutes = demoRoutes ∧
    2 ≤ demoRoutes.length ∧
    popUpdater demoRoutes ++ [⟨"Detail", "Detail-2", []⟩] = demoRoutes :=
  ⟨rfl, rfl, by decide, rfl⟩

/-- Claim C10: the route stack is never empty — it starts with exactly one route,
and every navigation operation maps a non-empty stack to a non-empty stack. -/
theorem stack_never_empty (screens : List Screen) (routes : List Route)
    (s : Screen) (k key name : String) (params : JObj)
    (h : 1 ≤ routes.length) :
    (stackInit s k).length = 1 ∧
    1 ≤ (stackPush screens routes name params key).length ∧
    1 ≤ (stackPop routes).length ∧
    1 ≤ (stackGoBack routes).length ∧
    1 ≤ (stackPopToTop routes).length ∧
    1 ≤ (stackReplace screens routes name params key).length ∧
    1 ≤ (stackNavigate screens routes name params key).length ∧
    1 ≤ (stackSetParams routes params).length := by
  have hne : routes ≠ [] := by
    rintro rfl
    simp at h
  have hfired : startOnComplete navTimingConfig (JVal.vFun 0) = [] := rfl
  have hvia : ∀ (u : List Route → List Route),
      viaCompletion (startOnComplete navTimingConfig (JVal.vFun 0)) u routes = routes := by
    intro u
    rw [hfired]
    simp [viaCompletion]
  have hpush : 1 ≤ (stackPush screens routes name params key).length := by
    unfold stackPush
    cases hf : screens.find? (fun s => s.name == name) with
    | none => exact h
    | some screen => exact (hvia (pushUpdater screen name key params)).symm ▸ h
  have hsetLast : ∀ r, 1 ≤ (jsSetLast routes r).length := by
    intro r
    unfold jsSetLast
    rw [if_neg (by simpa using hne)]
    simp
  refine ⟨rfl, hpush, ?_, ?_, ?_, ?_, ?_, ?_⟩
  · unfold stackPop
    split
    · exact h
    · exact (hvia popUpdater).symm ▸ h
  · unfold stackGoBack stackPop
    split
    · split
      · exact h
      · exact (hvia popUpdater).symm ▸ h
    · exact h
  · unfold stackPopToTop
    split
    · exact h
    · exact (hvia popToTopUpdater).symm ▸ h
  · unfold stackReplace
    cases hf : screens.find? (fun s => s.name == name) with
    | none => exact h
    | some screen => exact hsetLast _
  · unfold stackNavigate
    cases hidx : routes.findIdx? (fun r => r.name == name) with
    | none => exact hpush
    | some idx =>
      cases hget : (routes.take (idx + 1)).get? idx with
      | none =>
        simp only [hget, List.length_take]
        omega
      | some rt =>
        simp only [hget, List.length_set, List.length_take]
        omega
  · unfold stackSetParams
    cases hlast : routes.getLast? with
    | none => exact h
    | some rt => exact hsetLast _

/-- Witness for C10 at a concrete one-route stack and screen table. -/
theorem stack_never_empty_witness :
    (stackInit ⟨"Home", []⟩ "Home-1").length = 1 ∧
    1 ≤ (stackPush [⟨"Home", []⟩] demoRoutes "Home" [] "Home-3").length ∧
    1 ≤ (stackPop demoRoutes).length ∧
    1 ≤ (stackGoBack demoRoutes).length ∧
    1 ≤ (stackPopToTop demoRoutes).length ∧
    1 ≤ (stackReplace [⟨"Home", []⟩] demoRoutes "Home" [] "Home-3").length ∧
    1 ≤ (stackNavigate [⟨"Home", []⟩] demoRoutes "Home" [] "Home-3").length ∧
    1 ≤ (stackSetParams demoRoutes []).length :=
  stack_never_empty [⟨"Home", []⟩] demoRoutes ⟨"Home", []⟩ "Home-1" "Home-3" "Home" []
    (by simp [demoRoutes])

/-! ### The store (`createStore` in ChmlshStore.js)

The store closes over mutable variables `currentState`, `currentListeners`,
`nextListeners` and `isDispatching`.  `currentListeners`/`nextListeners` are
(aliased) references to listener arrays, so the model carries an explicit heap
of arrays and the two variables hold indices into it; `currentListeners` can
also hold `null`.  Listener functions are identified by numeric ids, with the
map from id to behaviour (`beh`) a parameter; a listener's behaviour is the
finite sequence of store calls it makes when invoked.  Each `subscribe` call
returns an `unsubscribe` closure with its own `isSubscribed` flag; closures
are identified by tokens, issued in order. -/

/-- `typeof v === 'object'` (true for `null` as well). -/
def typeofIsObject : JVal → Bool
  | .vNull => true
  | .vObj _ => true
  | _ => false

/-- `v === null`. -/
def isNullV : JVal → Bool
  | .vNull => true
  | _ => false

/-- Whether `action` passes `typeof action !== 'object' || action === null`
(negated): a non-null object. -/
def isRecord (a : JVal) : Bool :=
  typeofIsObject a && !isNullV a

/-- `typeof action.type === 'undefined'`. -/
def typeUndefined (a : JVal) : Bool :=
  isUndef (getField a "type")

/-- One store call made by a listener body. -/
inductive LAct where
  | subAct (listenerId : ℕ)
  | unsubAct (token : ℕ)
  | dispatchAct (a : JVal)

/-- `true` for the listener actions that only manage subscriptions. -/
def LAct.isSubOrUnsub : LAct → Bool
  | .dispatchAct _ => false
  | _ => true

/-- The mutable state captured by `createStore`'s closure, plus a ghost
`trace` recording the listener ids invoked, in order. -/
structure StoreSt (S : Type) where
  heap : List (List ℕ)
  currentListeners : Option ℕ
  nextListeners : ℕ
  tokens : List (ℕ × Bool)
  isDispatching : Bool
  currentState : S
  trace : List ℕ

/-- `ensureCanMutateNextListeners()`: if `nextListeners` is still the same
array object as `currentListeners`, replace it by a copy (a fresh array). -/
def ensureCanMutateNL {S : Type} (st : StoreSt S) : StoreSt S :=
  if st.currentListeners = some st.nextListeners then
    { st with
      heap := st.heap ++ [st.heap.getD st.nextListeners []]
      nextListeners := st.heap.length }
  else st

/-- `subscribe(listener)` for the listener with id `id` (listener ids model
function objects, so the `typeof listener !== 'function'` guard never fires
here).  Returns the token of the fresh `unsubscribe` closure. -/
def subscribeOp {S : Type} (id : ℕ) (st : StoreSt S) :
    Except String (ℕ × StoreSt S) :=
  if st.isDispatching then
    .error "You may not call store.subscribe() while the reducer is executing."
  else
    let st1 := ensureCanMutateNL st
    let arr := st1.heap.getD st1.nextListeners []
    .ok (st1.tokens.length,
      { st1 with
        heap := st1.heap.set st1.nextListeners (arr ++ [id])
        tokens := st1.tokens ++ [(id, true)] })

/-- `arr.indexOf(x)`: first index, or `-1`. -/
def jsIndexOf (arr : List ℕ) (x : ℕ) : ℤ :=
  match arr.indexOf? x with
  | some i => (i : ℤ)
  | none => -1

/-- `arr.splice(i, 1)` as used here: remove the element at (end-relative when
negative) index `i`, if any. -/
def jsSplice1 (arr : List ℕ) (i : ℤ) : List ℕ :=
  let j : ℕ := if i < 0 then ((arr.length : ℤ) + i).toNat else i.toNat
  arr.take j ++ arr.drop (j + 1)

/-- The `unsubscribe` closure of subscription `tok`: a no-op once its
`isSubscribed` flag is cleared; otherwise clears the flag, copies
`nextListeners` if needed, splices the listener out and nulls
`currentListeners`. -/
def unsubscribeOp {S : Type} (tok : ℕ) (st : StoreSt S) :
    Except String (StoreSt S) :=
  match st.tokens.get? tok with
  | none => .ok st
  | some (id, subd) =>
    if !subd then .ok st
    else if st.isDispatching then
      .error "You may not unsubscribe from a store listener while the reducer is executing."
    else
      let st1 := { st with tokens := st.tokens.set tok (id, false) }
      let st2 := ensureCanMutateNL st1
      let arr := st2.heap.getD st2.nextListeners []
      .ok { st2 with
        heap := st2.heap.set st2.nextListeners (jsSplice1 arr (jsIndexOf arr id))
        currentListeners := none }

/-- Run a listener body (its sequence of store calls); a nested `dispatch`
call is the function `dispatchFn` (the store's dispatch at one lower recursion
depth).  An exception thrown by any call aborts the body, as in JS. -/
def runActsF {S : Type}
    (dispatchFn : JVal → StoreSt S → Except String (JVal × StoreSt S)) :
    List LAct → StoreSt S → Except String (StoreSt S)
  | [], st => .ok st
  | .subAct id :: acts, st =>
    match subscribeOp id st with
    | .error e => .error e
    | .ok (_, st1) => runActsF dispatchFn acts st1
  | .unsubAct tok :: acts, st =>
    match unsubscribeOp tok st with
    | .error e => .error e
    | .ok st1 => runActsF dispatchFn acts st1
  | .dispatchAct a :: acts, st =>
    match dispatchFn a st with
    | .error e => .error e
    | .ok (_, st1) => runActsF dispatchFn acts st1

/-- The notification loop of `dispatch`:
`for (let i = 0; i < listeners.length; i++) { listeners[i](); }`, reading the
array at heap reference `listRef` afresh each iteration (the reference
captured by `const listeners = (currentListeners = nextListeners)`).  The
structural counter `fuel` bounds the iterations; every theorem supplies enough
for the loop to run to completion. -/
def notifyLoopF {S : Type} (beh : ℕ → List LAct)
    (dispatchFn : JVal → StoreSt S → Except String (JVal × StoreSt S)) :
    ℕ → ℕ → ℕ → StoreSt S → Except String (StoreSt S)
  | 0, _, _, _ => .error "stack overflow"
  | fuel + 1, listRef, i, st =>
    let arr := st.heap.getD listRef []
    if i < arr.length then
      match runActsF dispatchFn (beh (arr.getD i 0))
          { st with trace := st.trace ++ [arr.getD i 0] } with
      | .error e => .error e
      | .ok st1 => notifyLoopF beh dispatchFn fuel listRef (i + 1) st1
    else .ok st

/-- `dispatch(action)`: validates the action, rejects re-entry while a reducer
runs, applies the reducer under the `isDispatching` flag (`try`/`finally`:
the reducer here is a pure function, so setting and clearing the flag around
the call leaves it `false` afterwards), snapshots
`const listeners = (currentListeners = nextListeners)`, notifies, and returns
the action.  `fuel` bounds nested dispatches made by listeners (JS instead
overflows the call stack on unbounded nesting). -/
def dispatchOp {S : Type} (red : S → JVal → S) (beh : ℕ → List LAct) :
    ℕ → JVal → StoreSt S → Except String (JVal × StoreSt S)
  | fuel, a, st =>
    if !isRecord a then .error "Actions must be plain objects."
    else if typeUndefined a then
      .error "Actions may not have an undefined \"type\" property."
    else if st.isDispatching then .error "Reducers may not dispatch actions."
    else
      match fuel with
      | 0 => .error "stack overflow"
      | fuel + 1 =>
        let st1 := { st with currentState := red st.currentState a }
        let st2 := { st1 with currentListeners := some st1.nextListeners }
        match notifyLoopF beh (dispatchOp red beh fuel) (fuel + 1)
            st2.nextListeners 0 st2 with
        | .error e => .error e
        | .ok st3 => .ok (a, st3)

/-- `getState()`: rejected while a reducer is executing, otherwise returns the
current state reference (reading, and changing nothing). -/
def getStateOp {S : Type} (st : StoreSt S) : Except String S :=
  if st.isDispatching then
    .error "You may not call store.getState() while the reducer is executing."
  else .ok st.currentState

/-- `createStore(reducer, initialState)` without an enhancer: fresh closure
state (`currentListeners = []`, `nextListeners = currentListeners`, i.e. the
same array object) followed by the seeding `dispatch({type: '@@chmlsh/INIT'})`. -/
def createStore {S : Type} (red : S → JVal → S) (beh : ℕ → List LAct)
    (fuel : ℕ) (preloaded : S) : Except String (JVal × StoreSt S) :=
  dispatchOp red beh fuel (JVal.vObj [("type", JVal.vStr "@@chmlsh/INIT")])
    { heap := [[]]
      currentListeners := some 0
      nextListeners := 0
      tokens := []
      isDispatching := false
      currentState := preloaded
      trace := [] }

/-! ### Store invariants and theorems -/

lemma heap_getD_set_ne (heap : List (List ℕ)) (n m : ℕ) (v : List ℕ) (h : n ≠ m) :
    (heap.set n v).getD m [] = heap.getD m [] := by
  simp [List.getD_eq_getElem?_getD, List.getElem?_set_ne h]

lemma heap_getD_append_lt (heap : List (List ℕ)) (v : List ℕ) (m : ℕ) (h : m < heap.length) :
    (heap ++ [v]).getD m [] = heap.getD m [] := by
  simp [List.getD_eq_getElem?_getD, List.getElem?_append, h]

/-- Invariant of a notification pass over the listener array at heap reference
`L` with contents `arr`: the reference is valid, the array it names still
holds `arr`, `nextListeners` may alias `L` only while `currentListeners` does
too (so the copy-on-write in `ensureCanMutateNextListeners` fires before any
mutation could touch `L`), and no reducer is running. -/
def PassInv {S : Type} (L : ℕ) (arr : List ℕ) (st : StoreSt S) : Prop :=
  L < st.heap.length ∧
  st.heap.getD L [] = arr ∧
  (st.nextListeners = L → st.currentListeners = some L) ∧
  st.isDispatching = false

lemma subscribeOp_passInv {S : Type} (id L : ℕ) (arr : List ℕ) (st : StoreSt S)
    (h : PassInv L arr st) :
    ∃ tok st1, subscribeOp id st = .ok (tok, st1) ∧ PassInv L arr st1 ∧
      st1.trace = st.trace ∧ st1.currentState = st.currentState := by
  obtain ⟨hL, harr, hcur, hdisp⟩ := h
  by_cases hc : st.currentListeners = some st.nextListeners
  · refine ⟨st.tokens.length,
      { st with
        heap := st.heap ++ [st.heap.getD st.nextListeners [] ++ [id]]
        nextListeners := st.heap.length
        tokens := st.tokens ++ [(id, true)] }, ?_, ⟨?_, ?_, ?_, hdisp⟩, rfl, rfl⟩
    · simp [subscribeOp, hdisp, ensureCanMutateNL, hc]
    · simp only [List.length_append, List.length_singleton]
      omega
    · show (st.heap ++ [st.heap.getD st.nextListeners [] ++ [id]]).getD L [] = arr
      rw [heap_getD_append_lt _ _ _ hL]
      exact harr
    · intro hx
      simp only at hx
      omega
  · have hne : st.nextListeners ≠ L := fun he => hc (by rw [he, hcur he])
    refine ⟨st.tokens.length,
      { st with
        heap := st.heap.set st.nextListeners (st.heap.getD st.nextListeners [] ++ [id])
        tokens := st.tokens ++ [(id, true)] }, ?_, ⟨?_, ?_, ?_, hdisp⟩, rfl, rfl⟩
    · simp [subscribeOp, hdisp, ensureCanMutateNL, hc]
    · simp only [List.length_set]
      exact hL
    · show (st.heap.set st.nextListeners _).getD L [] = arr
      rw [heap_getD_set_ne _ _ _ _ hne]
      exact harr
    · intro hx
      exact hcur hx

lemma unsubscribeOp_passInv {S : Type} (tok L : ℕ) (arr : List ℕ) (st : StoreSt S)
    (h : PassInv L arr st) :
    ∃ st1, unsubscribeOp tok st = .ok st1 ∧ PassInv L arr st1 ∧
      st1.trace = st.trace ∧ st1.currentState = st.currentState := by
  obtain ⟨hL, harr, hcur, hdisp⟩ := h
  match htok : st.tokens[tok]? with
  | none =>
    exact ⟨st, by simp [unsubscribeOp, htok], ⟨hL, harr, hcur, hdisp⟩, rfl, rfl⟩
  | some (id, false) =>
    exact ⟨st, by simp [unsubscribeOp, htok], ⟨hL, harr, hcur, hdisp⟩, rfl, rfl⟩
  | some (id, true) =>
    by_cases hc : st.currentListeners = some st.nextListeners
    · refine ⟨{ st with
        tokens := st.tokens.set tok (id, false)
        heap := (st.heap ++ [st.heap.getD st.nextListeners []]).set st.heap.length
          (jsSplice1 (st.heap.getD st.nextListeners [])
            (jsIndexOf (st.heap.getD st.nextListeners []) id))
        nextListeners := st.heap.length
        currentListeners := none }, ?_, ⟨?_, ?_, ?_, hdisp⟩, rfl, rfl⟩
      · simp [unsubscribeOp, htok, hdisp, ensureCanMutateNL, hc]
      · simp only [List.length_set, List.length_append, List.length_singleton]
        omega
      · show ((st.heap ++ [st.heap.getD st.nextListeners []]).set st.heap.length _).getD L [] = arr
        rw [heap_getD_set_ne _ _ _ _ (by omega),
          heap_getD_append_lt _ _ _ hL]
        exact harr
      · intro hx
        simp only at hx
        omega
    · have hne : st.nextListeners ≠ L := fun he => hc (by rw [he, hcur he])
      refine ⟨{ st with
        tokens := st.tokens.set tok (id, false)
        heap := st.heap.set st.nextListeners
          (jsSplice1 (st.heap.getD st.nextListeners [])
            (jsIndexOf (st.heap.getD st.nextListeners []) id))
        currentListeners := none }, ?_, ⟨?_, ?_, ?_, hdisp⟩, rfl, rfl⟩
      · simp [unsubscribeOp, htok, hdisp, ensureCanMutateNL, hc]
      · simp only [List.length_set]
        exact hL
      · show (st.heap.set st.nextListeners _).getD L [] = arr
        rw [heap_getD_set_ne _ _ _ _ hne]
        exact harr
      · intro hx
        simp only at hx
        exact absurd hx hne

lemma runActsF_passInv {S : Type}
    (dispatchFn : JVal → StoreSt S → Except String (JVal × StoreSt S))
    (acts : List LAct) (hacts : ∀ a ∈ acts, a.isSubOrUnsub = true)
    (L : ℕ) (arr : List ℕ) (st : StoreSt S) (h : PassInv L arr st) :
    ∃ st1, runActsF dispatchFn acts st = .ok st1 ∧ PassInv L arr st1 ∧
      st1.trace = st.trace ∧ st1.currentState = st.currentState := by
  induction acts generalizing st with
  | nil => exact ⟨st, rfl, h, rfl, rfl⟩
  | cons act acts ih =>
    cases act with
    | subAct id =>
      obtain ⟨tok, stm, heqm, hm, htrm, hcsm⟩ := subscribeOp_passInv id L arr st h
      obtain ⟨st1, heq1, h1, htr1, hcs1⟩ := ih (fun a ha => hacts a (by simp [ha])) stm hm
      exact ⟨st1, by simp [runActsF, heqm, heq1], h1, by rw [htr1, htrm],
        by rw [hcs1, hcsm]⟩
    | unsubAct tok =>
      obtain ⟨stm, heqm, hm, htrm, hcsm⟩ := unsubscribeOp_passInv tok L arr st h
      obtain ⟨st1, heq1, h1, htr1, hcs1⟩ := ih (fun a ha => hacts a (by simp [ha])) stm hm
      exact ⟨st1, by simp [runActsF, heqm, heq1], h1, by rw [htr1, htrm],
        by rw [hcs1, hcsm]⟩
    | dispatchAct a =>
      exact absurd (hacts (LAct.dispatchAct a) (by simp)) (by simp [LAct.isSubOrUnsub])

lemma notifyLoopF_trace {S : Type} (beh : ℕ → List LAct)
    (hbeh : ∀ id, ∀ a ∈ beh id, a.isSubOrUnsub = true)
    (dispatchFn : JVal → StoreSt S → Except String (JVal × StoreSt S))
    (L : ℕ) (arr : List ℕ) :
    ∀ fuel i (st : StoreSt S), PassInv L arr st → arr.length - i < fuel →
    ∃ st1, notifyLoopF beh dispatchFn fuel L i st = .ok st1 ∧ PassInv L arr st1 ∧
      st1.trace = st.trace ++ arr.drop i ∧ st1.currentState = st.currentState := by
  intro fuel
  induction fuel with
  | zero => intro i st _ hf; omega
  | succ fuel ih =>
    intro i st h hf
    have harr := h.2.1
    by_cases hi : i < arr.length
    · have hm0 : PassInv L arr { st with trace := st.trace ++ [arr.getD i 0] } := by
        obtain ⟨a1, a2, a3, a4⟩ := h
        exact ⟨a1, a2, a3, a4⟩
      obtain ⟨stm, heqm, hm, htrm, hcsm⟩ :=
        runActsF_passInv dispatchFn (beh (arr.getD i 0)) (hbeh _) L arr _ hm0
      obtain ⟨st1, heq1, h1, htr1, hcs1⟩ := ih (i + 1) stm hm (by omega)
      refine ⟨st1, ?_, h1, ?_, by rw [hcs1, hcsm]⟩
      · simp only [notifyLoopF, harr]
        rw [if_pos hi]
        simp only [heqm]
        exact heq1
      · rw [htr1, htrm]
        simp only [List.append_assoc]
        congr 1
        rw [List.drop_eq_getElem_cons hi]
        simp [List.getD_eq_getElem?_getD, List.getElem?_eq_getElem hi]
    · refine ⟨st, ?_, h, ?_, rfl⟩
      · simp only [notifyLoopF, harr]
        rw [if_neg hi]
      · rw [List.drop_eq_nil_of_le (by omega)]
        simp

/-- Full behaviour of a successful `dispatch` when every listener only
subscribes or unsubscribes: it returns the action, the reducer's result
replaces the state, and exactly the listeners in the array referenced by
`nextListeners` when the dispatch begins are invoked, in array (=
subscription) order. -/
lemma dispatchOp_ok_spec {S : Type} (red : S → JVal → S) (beh : ℕ → List LAct)
    (hbeh : ∀ id, ∀ a ∈ beh id, a.isSubOrUnsub = true)
    (st : StoreSt S) (a : JVal) (fuel : ℕ)
    (hrec : isRecord a = true) (hty : typeUndefined a = false)
    (hdisp : st.isDispatching = false)
    (href : st.nextListeners < st.heap.length)
    (hfuel : (st.heap.getD st.nextListeners []).length < fuel) :
    ∃ st1, dispatchOp red beh fuel a st = .ok (a, st1) ∧
      st1.trace = st.trace ++ st.heap.getD st.nextListeners [] ∧
      st1.currentState = red st.currentState a ∧
      st1.isDispatching = false := by
  obtain ⟨f, rfl⟩ : ∃ f, fuel = f + 1 := ⟨fuel - 1, by omega⟩
  have hpi : PassInv st.nextListeners (st.heap.getD st.nextListeners [])
      { st with currentState := red st.currentState a
                currentListeners := some st.nextListeners } :=
    ⟨href, rfl, fun _ => rfl, hdisp⟩
  obtain ⟨st1, heq1, h1, htr1, hcs1⟩ :=
    notifyLoopF_trace beh hbeh (dispatchOp red beh f) st.nextListeners
      (st.heap.getD st.nextListeners []) (f + 1) 0 _ hpi (by omega)
  refine ⟨st1, ?_, by simpa using htr1, hcs1, h1.2.2.2⟩
  rw [hdisp] at heq1
  simp only [dispatchOp, hrec, hty, hdisp, Bool.not_true, Bool.false_eq_true,
    if_false, if_neg]
  rw [heq1]

/-- The counting reducer used in the concrete store runs. -/
def redN : ℕ → JVal → ℕ := fun s _ => s + 1

/-- Listener table where no listener does anything. -/
def behNone : ℕ → List LAct := fun _ => []

/-- A well-formed action `{type: 'INC'}`. -/
def actInc : JVal := JVal.vObj [("type", JVal.vStr "INC")]

/-- An action whose `type` is the empty string. -/
def actEmptyType : JVal := JVal.vObj [("type", JVal.vStr "")]

/-- A fresh store with no listeners, counter state `0`. -/
def stSimple : StoreSt ℕ :=
  { heap := [[]], currentListeners := some 0, nextListeners := 0,
    tokens := [], isDispatching := false, currentState := 0, trace := [] }

/-- Listener table where listener `0` unsubscribes itself (token `0`) and then
calls `dispatch({type: 'INC'})` from within the notification pass. -/
def behReentrant : ℕ → List LAct :=
  fun id => if id = 0 then [LAct.unsubAct 0, LAct.dispatchAct actInc] else []

/-- Store with the single subscribed listener `0` (token `0`), state `0`. -/
def stOne : StoreSt ℕ :=
  { heap := [[0]], currentListeners := some 0, nextListeners := 0,
    tokens := [(0, true)], isDispatching := false, currentState := 0, trace := [] }

/-- Listener table where listener `0` unsubscribes itself and `1`, `2` do
nothing. -/
def behSelfUnsub : ℕ → List LAct :=
  fun id => if id = 0 then [LAct.unsubAct 0] else []

/-- Store with three subscribed listeners `0, 1, 2` (tokens `0, 1, 2`). -/
def stThree : StoreSt ℕ :=
  { heap := [[0, 1, 2]], currentListeners := some 0, nextListeners := 0,
    tokens := [(0, true), (1, true), (2, true)], isDispatching := false,
    currentState := 0, trace := [] }

/-- Claim C2: on any dispatch, the listeners notified are exactly those in the
`nextListeners` array when the dispatch begins (its snapshot when the
notification pass starts — `subscribe`/`unsubscribe` cannot run during the
reducer), invoked synchronously in subscription order, each exactly once; a
listener that unsubscribes itself or subscribes/unsubscribes others during the
pass neither changes which listeners the pass invokes, nor blocks subsequent
listeners, nor is invoked again: the ghost `trace` extends by precisely the
snapshot. -/
theorem dispatch_notifies_snapshot {S : Type} (red : S → JVal → S)
    (beh : ℕ → List LAct)
    (hbeh : ∀ id, ∀ act ∈ beh id, act.isSubOrUnsub = true)
    (st : StoreSt S) (a : JVal) (fuel : ℕ)
    (hrec : isRecord a = true) (hty : typeUndefined a = false)
    (hdisp : st.isDispatching = false)
    (href : st.nextListeners < st.heap.length)
    (hfuel : (st.heap.getD st.nextListeners []).length < fuel) :
    ∃ st1, dispatchOp red beh fuel a st = .ok (a, st1) ∧
      st1.trace = st.trace ++ st.heap.getD st.nextListeners [] := by
  obtain ⟨st1, h1, h2, _, _⟩ :=
    dispatchOp_ok_spec red beh hbeh st a fuel hrec hty hdisp href hfuel
  exact ⟨st1, h1, h2⟩

/-- Witness for C2: three listeners of which the first unsubscribes itself
during the pass; all three are still notified, in order. -/
theorem dispatch_notifies_snapshot_witness :
    ∃ st1, dispatchOp redN behSelfUnsub 10 actInc stThree = .ok (actInc, st1) ∧
      st1.trace = stThree.trace ++ stThree.heap.getD stThree.nextListeners [] :=
  dispatch_notifies_snapshot redN behSelfUnsub
    (by
      intro id act ha
      by_cases h : id = 0
      · simp [behSelfUnsub, h] at ha
        subst ha
        rfl
      · simp [behSelfUnsub, h] at ha)
    stThree actInc 10 (by decide) (by decide) (by decide) (by decide) (by decide)

/-- Claim C1 (counterexample): on the store `stOne`, whose single listener
first unsubscribes itself and then calls `dispatch`, the dispatch made from
within the listener does NOT fail with the reentrancy error — `isDispatching`
was already cleared in the `finally` block before listeners run.  The whole
run returns normally with the reducer applied twice (state `2`), the listener
having been invoked once. -/
theorem dispatch_from_listener_succeeds :
    (dispatchOp redN behReentrant 10 actInc stOne).toOption.map
        (fun p => p.2.currentState) = some 2 ∧
    (dispatchOp redN behReentrant 10 actInc stOne).toOption.map
        (fun p => p.2.trace) = some [0] := by decide

/-- Claim C1 (amended): `dispatch` fails with the reentrancy error exactly
when invoked while the reducer is running (the `isDispatching` flag is set),
for any valid action; a dispatch made from within a listener of the in-flight
dispatch runs after the flag is cleared and succeeds as a full nested
dispatch (shown on the concrete store `stOne`). -/
theorem dispatch_reentrancy_amended :
    (∀ (S : Type) (red : S → JVal → S) (beh : ℕ → List LAct) (fuel : ℕ)
      (a : JVal) (st : StoreSt S), isRecord a = true → typeUndefined a = false →
      st.isDispatching = true →
      dispatchOp red beh fuel a st = .error "Reducers may not dispatch actions.") ∧
    (dispatchOp redN behReentrant 10 actInc stOne).toOption.map
      (fun p => p.2.currentState) = some 2 := by
  constructor
  · intro S red beh fuel a st hrec hty hd
    cases fuel <;> simp [dispatchOp, hrec, hty, hd]
  · decide

/-- Witness for the amended C1: a dispatch attempted while `isDispatching` is
set fails with the reentrancy error. -/
theorem dispatch_reentrancy_amended_witness :
    dispatchOp redN behNone 5 actInc { stSimple with isDispatching := true }
      = .error "Reducers may not dispatch actions." :=
  dispatch_reentrancy_amended.1 ℕ redN behNone 5 actInc _ rfl rfl rfl

/-- Claim C4 (counterexample): dispatching `{type: ''}` — a record whose
`type` is the empty string — is NOT rejected: validation only tests
`typeof action.type === 'undefined'`, so the dispatch succeeds and runs the
reducer (state `1`). -/
theorem dispatch_empty_type_accepted :
    (dispatchOp redN behNone 5 actEmptyType stSimple).toOption.map
      (fun p => p.2.currentState) = some 1 := by decide

/-- Claim C4 (amended): outside a reducer, `dispatch(action)` throws exactly
when `action` is not a non-null object or its `type` is `undefined` (an empty
`type` string is accepted); otherwise it runs the reducer, replaces the state
with its result, and returns the dispatched action itself. -/
theorem dispatch_validation_amended {S : Type} (red : S → JVal → S)
    (beh : ℕ → List LAct)
    (hbeh : ∀ id, ∀ act ∈ beh id, act.isSubOrUnsub = true)
    (st : StoreSt S) (fuel : ℕ)
    (hdisp : st.isDispatching = false)
    (href : st.nextListeners < st.heap.length)
    (hfuel : (st.heap.getD st.nextListeners []).length < fuel) (a : JVal) :
    (isRecord a = false →
      dispatchOp red beh fuel a st = .error "Actions must be plain objects.") ∧
    (isRecord a = true → typeUndefined a = true →
      dispatchOp red beh fuel a st
        = .error "Actions may not have an undefined \"type\" property.") ∧
    (isRecord a = true → typeUndefined a = false →
      ∃ st1, dispatchOp red beh fuel a st = .ok (a, st1) ∧
        st1.currentState = red st.currentState a) := by
  refine ⟨?_, ?_, ?_⟩
  · intro h
    cases fuel <;> simp [dispatchOp, h]
  · intro h1 h2
    cases fuel <;> simp [dispatchOp, h1, h2]
  · intro h1 h2
    obtain ⟨st1, e1, _, e3, _⟩ :=
      dispatchOp_ok_spec red beh hbeh st a fuel h1 h2 hdisp href hfuel
    exact ⟨st1, e1, e3⟩

/-- Witness for the amended C4: a string action and a typeless record are
rejected with the two validation errors; `{type: 'INC'}` dispatches, runs the
reducer and is returned. -/
theorem dispatch_validation_amended_witness :
    dispatchOp redN behNone 5 (JVal.vStr "INC") stSimple
      = .error "Actions must be plain objects." ∧
    dispatchOp redN behNone 5 (JVal.vObj []) stSimple
      = .error "Actions may not have an undefined \"type\" property." ∧
    ∃ st1, dispatchOp redN behNone 5 actInc stSimple = .ok (actInc, st1) ∧
      st1.currentState = redN stSimple.currentState actInc := by
  have hb : ∀ id, ∀ act ∈ behNone id, act.isSubOrUnsub = true := by
    intro id act ha
    simp [behNone] at ha
  refine ⟨?_, ?_, ?_⟩
  · exact (dispatch_validation_amended redN behNone hb stSimple 5 rfl (by decide)
      (by decide) _).1 rfl
  · exact (dispatch_validation_amended redN behNone hb stSimple 5 rfl (by decide)
      (by decide) _).2.1 rfl rfl
  · exact (dispatch_validation_amended redN behNone hb stSimple 5 rfl (by decide)
      (by decide) _).2.2 rfl rfl

/-- Claim C5: `getState` fails fast with the reentrancy error exactly while
the reducer of an in-flight dispatch is executing (the `isDispatching` flag is
set); at any other time it returns the current state reference, and — being a
pure read of the closure state — leaves the store unchanged. -/
theorem getState_reentrancy {S : Type} (st : StoreSt S) :
    (st.isDispatching = true →
      getStateOp st
        = .error "You may not call store.getState() while the reducer is executing.") ∧
    (st.isDispatching = false → getStateOp st = .ok st.currentState) := by
  constructor
  · intro h
    simp [getStateOp, h]
  · intro h
    simp [getStateOp, h]

/-- Witness for C5 on a concrete store, in and out of a reducer. -/
theorem getState_reentrancy_witness :
    getStateOp { stSimple with isDispatching := true }
      = .error "You may not call store.getState() while the reducer is executing." ∧
    getStateOp stSimple = .ok stSimple.currentState :=
  ⟨(getState_reentrancy _).1 rfl, (getState_reentrancy _).2 rfl⟩

end Chmlsh
